import Mathlib

/-!
Verification development for the `todo-service` example
(`src/examples/todo-service/main.py` of nomagicln/open-bridge).

The Python service is embedded shallowly:

* pydantic models become Lean structures; `datetime` values become integer
  timestamps (seconds); enums become inductive types;
* the global mutable state (`todos : dict[int, Todo]`, `current_id : int`)
  becomes an explicit `Store` value threaded through the operations, with the
  dict modelled as an insertion-ordered association list (Python dicts
  preserve insertion order, and assignment to an existing key updates in
  place);
* each FastAPI endpoint function becomes a pure function from its arguments
  and the pre-state to its response and the post-state; a raised
  `HTTPException(404)` becomes an `ApiError.notFound` result that leaves the
  state unchanged;
* `datetime.now(timezone.utc)` becomes an explicit `now : Int` argument
  (the source reads the clock up to twice inside one request; the model uses
  one instant per request, which is what every claim assumes);
* Python `float` arithmetic inside `calculate_progress` is modelled exactly
  as IEEE-754 binary64 (round to nearest, ties to even) using integer
  arithmetic, because the claims about progress are sensitive to binary64
  rounding.  Exponents stay in a tiny range here so overflow and subnormals
  cannot occur.
-/

namespace TodoService

/-- Priority levels for todos (`class Priority`). -/
inductive Priority where
  | low
  | medium
  | high
  | critical
deriving DecidableEq, Repr

/-- Status of a todo item (`class Status`). -/
inductive Status where
  | pending
  | in_progress
  | completed
  | blocked
  | cancelled
deriving DecidableEq, Repr

/-- Recurrence patterns (`class RecurrenceType`). -/
inductive RecurrenceType where
  | none
  | daily
  | weekly
  | monthly
  | yearly
deriving DecidableEq, Repr

/-- Label for categorizing todos (`class Label`). -/
structure Label where
  name : String
  color : String
  description : Option String
deriving DecidableEq, Repr

/-- A subtask within a todo (`class Subtask`).  The generated UUID is an
opaque string here. -/
structure Subtask where
  id : String
  title : String
  completed : Bool
  completed_at : Option Int
deriving DecidableEq, Repr

/-- Reminder configuration (`class Reminder`). -/
structure Reminder where
  remind_at : Int
  notification_type : String
  message : Option String
deriving DecidableEq, Repr

/-- Recurrence configuration (`class Recurrence`). -/
structure Recurrence where
  type : RecurrenceType
  interval : Nat
  end_date : Option Int
  occurrences : Option Nat
deriving DecidableEq, Repr

/-- Values of the free-form `custom_fields` map
(`dict[str, str | int | bool | None]`). -/
inductive CustomValue where
  | str (s : String)
  | int (i : Int)
  | bool (b : Bool)
  | null
deriving DecidableEq, Repr

/-- Metadata about the todo item (`class Metadata`). -/
structure Metadata where
  created_at : Int
  updated_at : Int
  created_by : Option String
  version : Nat
  tags : List String
  custom_fields : List (String × CustomValue)
deriving DecidableEq, Repr

/-- File attachment (`class Attachment`). -/
structure Attachment where
  id : String
  filename : String
  mime_type : String
  size_bytes : Nat
  url : String
deriving DecidableEq, Repr

/-- Complete todo item (`class Todo`): the `TodoBase` fields plus `id`,
`metadata`, `completed_at` and `progress_percent`. -/
structure Todo where
  id : Nat
  title : String
  description : Option String
  priority : Priority
  status : Status
  due_date : Option Int
  labels : List Label
  subtasks : List Subtask
  reminders : List Reminder
  recurrence : Option Recurrence
  attachments : List Attachment
  parent_id : Option Nat
  assignee_ids : List String
  estimated_minutes : Option Nat
  actual_minutes : Option Nat
  metadata : Metadata
  completed_at : Option Int
  progress_percent : Int
deriving DecidableEq, Repr

/-- Request body for creating a todo (`class TodoCreate`, i.e. the
`TodoBase` fields). -/
structure TodoCreate where
  title : String
  description : Option String
  priority : Priority
  status : Status
  due_date : Option Int
  labels : List Label
  subtasks : List Subtask
  reminders : List Reminder
  recurrence : Option Recurrence
  attachments : List Attachment
  parent_id : Option Nat
  assignee_ids : List String
  estimated_minutes : Option Nat
  actual_minutes : Option Nat
deriving DecidableEq, Repr

/-- Request body for a partial update (`class TodoUpdate`).  Pydantic
`model_dump(exclude_unset=True)` distinguishes a field that the request did
not mention from a field explicitly supplied (possibly as JSON null), so an
update field of source type `T | None` with a meaningful null is modelled as
`Option (Option T)`: `none` means not mentioned, `some none` means
explicitly null, `some (some v)` means explicitly `v`.  For fields whose
source type is not nullable in a stored `Todo` (title, priority, status, the
list fields), an explicit null would store an ill-typed todo via
`model_copy`, which never validates; those degenerate requests are outside
this model and the field is a single-level `Option` (`none` = not
mentioned). -/
structure TodoUpdate where
  title : Option String
  description : Option (Option String)
  priority : Option Priority
  status : Option Status
  due_date : Option (Option Int)
  labels : Option (List Label)
  subtasks : Option (List Subtask)
  reminders : Option (List Reminder)
  recurrence : Option (Option Recurrence)
  attachments : Option (List Attachment)
  parent_id : Option (Option Nat)
  assignee_ids : Option (List String)
  estimated_minutes : Option (Option Nat)
  actual_minutes : Option (Option Nat)
deriving DecidableEq, Repr

/-- Paginated list response (`class PaginatedResponse`). -/
structure PaginatedResponse where
  items : List Todo
  total : Nat
  page : Nat
  page_size : Nat
  total_pages : Nat
  has_next : Bool
  has_previous : Bool
deriving DecidableEq, Repr

/-- Response for batch create (`class BatchCreateResponse`); a failed item
is recorded with its zero-based index and an error message. -/
structure BatchCreateResponse where
  created : List Todo
  failed : List (Nat × String)
  total_created : Nat
  total_failed : Nat
deriving DecidableEq, Repr

/-- Response for batch delete (`class BatchDeleteResponse`). -/
structure BatchDeleteResponse where
  deleted_ids : List Nat
  not_found_ids : List Nat
  total_deleted : Nat
deriving DecidableEq, Repr

/-- Statistics response (`class StatsResponse`).  The two count maps are
keyed by the enum value strings, in enum order, exactly as the dicts the
source builds; the average is an exact rational where the source holds a
binary64 (no claim in scope depends on rounding of the average). -/
structure StatsResponse where
  total_todos : Nat
  by_status : List (String × Nat)
  by_priority : List (String × Nat)
  overdue_count : Nat
  completed_this_week : Nat
  average_completion_time_minutes : Option ℚ
deriving DecidableEq, Repr

/-- The shared mutable state of the service: the module-level
`todos : dict[int, Todo]` (as an insertion-ordered association list) and
`current_id : int`. -/
structure Store where
  todos : List (Nat × Todo)
  current_id : Nat
deriving DecidableEq, Repr

/-- Typed form of the only error the endpoints raise
(`HTTPException(status_code=404)`). -/
inductive ApiError where
  | notFound
deriving DecidableEq, Repr

/-- Keys currently present in the store, in insertion order. -/
def storeKeys (st : Store) : List Nat := st.todos.map Prod.fst

/-- Dict lookup `todos[todo_id]` / membership `todo_id in todos`. -/
def lookupTodo (todo_id : Nat) (st : Store) : Option Todo :=
  (st.todos.find? (fun p => p.1 = todo_id)).map Prod.snd

/-- Dict assignment `todos[key] = t`: update in place when the key exists,
append otherwise (Python dicts preserve insertion order). -/
def putTodo (key : Nat) (t : Todo) (st : Store) : Store :=
  if (lookupTodo key st).isSome then
    { st with todos := st.todos.map (fun p => if p.1 = key then (key, t) else p) }
  else
    { st with todos := st.todos ++ [(key, t)] }

/-- Dict deletion `del todos[key]`. -/
def removeTodo (key : Nat) (st : Store) : Store :=
  { st with todos := st.todos.filter (fun p => ¬ p.1 = key) }

end TodoService

namespace TodoService

/-! Exact binary64 model.  A nonnegative value is carried as a pair
`(sig, m)` denoting the real number `sig / 2 ^ m`.  `roundFrac a b` is the
binary64 nearest-even rounding of the positive rational `a / b`; it agrees
with CPython because float division of exactly representable operands and
float multiplication are correctly rounded. -/

/-- Floor of the base-2 logarithm of a natural number, by fuel recursion so
that the kernel can evaluate it (`Nat.log2` itself is defined by
well-founded recursion). -/
def log2Fuel : Nat → Nat → Nat
  | 0, _ => 0
  | fuel + 1, n => if n ≤ 1 then 0 else log2Fuel fuel (n / 2) + 1

/-- Floor of log2 of `n` (0 for `n = 0`). -/
def natLog2 (n : Nat) : Nat := log2Fuel n n

/-- Decide whether `2 ^ e ≤ a / b` for naturals `a b > 0` and an integer
exponent, by cross-multiplying. -/
def twoPowLe (e : Int) (a b : Nat) : Bool :=
  if 0 ≤ e then b * 2 ^ e.toNat ≤ a else b ≤ a * 2 ^ (-e).toNat

/-- Floor of log2 of the positive rational `a / b`.  The candidate
`natLog2 a - natLog2 b` is off by at most one (always at most one too
high), and is corrected by a direct comparison. -/
def floorLog2Frac (a b : Nat) : Int :=
  let e : Int := (natLog2 a : Int) - (natLog2 b : Int)
  if twoPowLe e a b then e else e - 1

/-- Round the nonnegative rational `a / b` to the nearest integer, ties to
even. -/
def roundNearDiv (a b : Nat) : Nat :=
  let d := a / b
  let r := a % b
  if 2 * r < b then d
  else if b < 2 * r then d + 1
  else if d % 2 = 0 then d else d + 1

/-- Binary64 rounding of the rational `a / b` (with `b > 0`), returned as a
pair `(sig, m)` meaning `sig / 2 ^ m`.  The 53-bit significand lies in the
binade `2 ^ f ≤ a / b < 2 ^ (f + 1)`, so the scale exponent is `f - 52`. -/
def roundFrac (a b : Nat) : Nat × Nat :=
  if a = 0 then (0, 0)
  else
    let f := floorLog2Frac a b
    let e := f - 52
    if 0 ≤ e then (roundNearDiv a (b * 2 ^ e.toNat) * 2 ^ e.toNat, 0)
    else ((roundNearDiv (a * 2 ^ (-e).toNat) b), (-e).toNat)

/-- Progress percentage (`def calculate_progress`).  With no subtasks the
result is 100 for a completed todo and 0 otherwise.  Otherwise the source
computes `int((completed / len(subtasks)) * 100)` in Python floats: one
correctly rounded binary64 division, one correctly rounded binary64
multiplication by 100, then truncation toward zero (equal to floor, both
factors being nonnegative). -/
def calculate_progress (todo : Todo) : Int :=
  if todo.subtasks = [] then
    if todo.status = Status.completed then 100 else 0
  else
    let completed := (todo.subtasks.filter (fun s => s.completed)).length
    let q1 := roundFrac completed todo.subtasks.length
    let q2 := roundFrac (100 * q1.1) (2 ^ q1.2)
    (q2.1 / 2 ^ q2.2 : Nat)

/-- Overdue predicate: due date set, strictly before `now`, and status not
completed.  The source inlines this same expression twice (in the
`is_overdue` filter branch of `list_todos` and in `get_stats`); the spec
names it `is_overdue`. -/
def is_overdue (t : Todo) (now : Int) : Bool :=
  match t.due_date with
  | some d => decide (d < now) && decide (t.status ≠ Status.completed)
  | none => false

/-- The `is_overdue` query filter of `list_todos` (lines 416 to 434).  With
`flag = true` it keeps exactly the overdue todos; with `flag = false` it
keeps the todos that have a due date and are not overdue, so a todo without
a due date survives neither branch. -/
def overdueFilter (flag : Bool) (now : Int) (l : List Todo) : List Todo :=
  if flag then
    l.filter (fun t => is_overdue t now)
  else
    l.filter (fun t => t.due_date.isSome && !(is_overdue t now))

/-- Contiguous-substring test on character lists: Python `needle in hay`. -/
def strContains (hay needle : List Char) : Bool :=
  hay.tails.any (fun t => needle.isPrefixOf t)

/-- Search filter of `list_todos`: case-insensitive substring match in the
title or the description.  Python string containment on the lowercased
data; an empty or missing description never matches (the source guards with
the truthiness of `t.description`). -/
def searchMatch (needle : String) (t : Todo) : Bool :=
  strContains t.title.toLower.data needle.toLower.data
  || (match t.description with
      | some d => !(d = "") && strContains d.toLower.data needle.toLower.data
      | none => false)

/-- Far-future fallback timestamp the source uses for missing due dates
while sorting: `datetime(9999, 12, 31, tzinfo=timezone.utc)` as seconds
since the epoch. -/
def far_future : Int := 253402214400

/-- Ordinal rank of a priority: `priority_order` maps each member of the
`Priority` enum to its index in declaration order. -/
def priorityRank : Priority → Int
  | .low => 0
  | .medium => 1
  | .high => 2
  | .critical => 3

/-- Sort key resolution of `list_todos` (`sort_key_map.get(sort_by, ...)`);
an unrecognized key falls back to `created_at`.  All three keys are
injected into `Int`. -/
def sortKey (sort_by : String) (t : Todo) : Int :=
  if sort_by = "due_date" then
    match t.due_date with
    | some d => d
    | none => far_future
  else if sort_by = "priority" then priorityRank t.priority
  else t.metadata.created_at

/-- The sort stage of `list_todos`: Python `list.sort(key=..., reverse=...)`
is a stable sort; `reverse=True` gives descending order that still keeps
the original relative order of equal keys, which is exactly a stable merge
sort under the flipped non-strict comparison. -/
def sortStage (sort_by sort_order : String) (l : List Todo) : List Todo :=
  if sort_order = "desc" then
    l.mergeSort (fun a b => sortKey sort_by b ≤ sortKey sort_by a)
  else
    l.mergeSort (fun a b => sortKey sort_by a ≤ sortKey sort_by b)

/-- The pagination stage of `list_todos` (lines 448 to 463): slice
`result[start:end]` with `start = (page - 1) * page_size`, total pages by
the rounded-up division `(total + page_size - 1) // page_size` when the
total is positive and 0 otherwise.  The request layer guarantees
`page ≥ 1` and `1 ≤ page_size ≤ 100`, so the natural subtraction
`page - 1` agrees with the source. -/
def paginate (result : List Todo) (page page_size : Nat) : PaginatedResponse :=
  let total := result.length
  let total_pages := if 0 < total then (total + page_size - 1) / page_size else 0
  let start := (page - 1) * page_size
  let items := (result.drop start).take page_size
  { items := items
    total := total
    page := page
    page_size := page_size
    total_pages := total_pages
    has_next := decide (page < total_pages)
    has_previous := decide (1 < page) }

/-- Query parameters of `GET /todos` with their request-layer defaults. -/
structure ListParams where
  page : Nat := 1
  page_size : Nat := 20
  status : Option Status := none
  priority : Option Priority := none
  search : Option String := none
  has_subtasks : Option Bool := none
  is_overdue : Option Bool := none
  sort_by : String := "created_at"
  sort_order : String := "desc"
deriving DecidableEq, Repr

/-- The list operation (`def list_todos`): conjunctive filters in source
order, then sort, then pagination.  A `Status` or `Priority` value is a
nonempty-string enum member, hence always truthy, so `if status:` is
`isSome`; a supplied empty search string is falsy and skips the search
filter. -/
def list_todos (now : Int) (p : ListParams) (st : Store) : PaginatedResponse :=
  let result := st.todos.map Prod.snd
  let result := match p.status with
    | some s => result.filter (fun t => t.status = s)
    | none => result
  let result := match p.priority with
    | some pr => result.filter (fun t => t.priority = pr)
    | none => result
  let result := match p.search with
    | some needle => if needle = "" then result else result.filter (searchMatch needle)
    | none => result
  let result := match p.has_subtasks with
    | some hs => result.filter (fun t => (decide (¬ t.subtasks = [])) = hs)
    | none => result
  let result := match p.is_overdue with
    | some flag => overdueFilter flag now result
    | none => result
  let result := sortStage p.sort_by p.sort_order result
  paginate result p.page p.page_size

/-- Pydantic field validation of a `TodoCreate` payload (the constraints on
`TodoBase` and its nested models).  A `Todo(...)` construction raises
exactly when one of these bounds fails; natural-number fields subsume the
nonnegativity bounds. -/
def validTodoCreate (i : TodoCreate) : Bool :=
  (1 ≤ i.title.length && i.title.length ≤ 500)
  && (match i.description with
      | some d => d.length ≤ 5000
      | none => true)
  && i.labels.all (fun lb =>
      (1 ≤ lb.name.length && lb.name.length ≤ 50)
      && lb.color.length = 7
      && (match lb.color.data with
          | c :: rest => c = '#' && rest.all (fun h =>
              h.isDigit || ('a' ≤ h && h ≤ 'f') || ('A' ≤ h && h ≤ 'F'))
          | [] => false))
  && i.subtasks.all (fun s => 1 ≤ s.title.length && s.title.length ≤ 200)
  && (match i.recurrence with
      | some r =>
          (1 ≤ r.interval && r.interval ≤ 365)
          && (match r.occurrences with
              | some o => 1 ≤ o
              | none => true)
      | none => true)
  && i.attachments.all (fun a => 1 ≤ a.filename.length)
  && (match i.estimated_minutes with
      | some m => 1 ≤ m && m ≤ 10080
      | none => true)

/-- Construction of the stored `Todo` from a create payload:
`Todo(id=current_id, **todo.model_dump(), metadata=Metadata())` followed by
the `progress_percent` assignment.  A fresh `Metadata()` has
`created_at = updated_at = now`, no creator, version 1 and empty tag and
custom-field containers; `completed_at` defaults to absent. -/
def mkTodo (id : Nat) (now : Int) (i : TodoCreate) : Todo :=
  let base : Todo :=
    { id := id
      title := i.title
      description := i.description
      priority := i.priority
      status := i.status
      due_date := i.due_date
      labels := i.labels
      subtasks := i.subtasks
      reminders := i.reminders
      recurrence := i.recurrence
      attachments := i.attachments
      parent_id := i.parent_id
      assignee_ids := i.assignee_ids
      estimated_minutes := i.estimated_minutes
      actual_minutes := i.actual_minutes
      metadata :=
        { created_at := now
          updated_at := now
          created_by := none
          version := 1
          tags := []
          custom_fields := [] }
      completed_at := none
      progress_percent := 0 }
  { base with progress_percent := calculate_progress base }

/-- The create operation (`def create_todo`): bump `current_id` first, then
build and store the todo.  A validation failure in the construction would
escape before the store assignment, with the counter already advanced; the
endpoint only ever receives payloads that passed request validation, so for
those the result is always `some`. -/
def create_todo (now : Int) (input : TodoCreate) (st : Store) :
    Option Todo × Store :=
  let cid := st.current_id + 1
  let st1 : Store := { st with current_id := cid }
  if validTodoCreate input then
    let t := mkTodo cid now input
    (some t, putTodo cid t st1)
  else
    (none, st1)

/-- The merge of `update_todo`:
`stored_todo.model_copy(update={**update_data, "metadata": ..., "completed_at": ...})`.
Fields absent from the request keep the stored value; fields present
(including explicit nulls on nullable fields) overwrite it; `metadata` and
`completed_at` are set by the endpoint itself and `TodoUpdate` carries
neither, so there is no key collision.  `model_copy` never validates. -/
def mergeUpdate (stored : Todo) (u : TodoUpdate) (md : Metadata)
    (completed_at : Option Int) : Todo :=
  { stored with
    title := u.title.getD stored.title
    description := u.description.getD stored.description
    priority := u.priority.getD stored.priority
    status := u.status.getD stored.status
    due_date := u.due_date.getD stored.due_date
    labels := u.labels.getD stored.labels
    subtasks := u.subtasks.getD stored.subtasks
    reminders := u.reminders.getD stored.reminders
    recurrence := u.recurrence.getD stored.recurrence
    attachments := u.attachments.getD stored.attachments
    parent_id := u.parent_id.getD stored.parent_id
    assignee_ids := u.assignee_ids.getD stored.assignee_ids
    estimated_minutes := u.estimated_minutes.getD stored.estimated_minutes
    actual_minutes := u.actual_minutes.getD stored.actual_minutes
    metadata := md
    completed_at := completed_at }

/-- The update operation (`def update_todo`).  On a missing id it raises
404 and touches nothing.  Otherwise it bumps the metadata version and
update timestamp, applies the completion transition rule when the request
mentions `status`, merges the supplied fields, recomputes the progress of
the merged todo, stores it and returns it. -/
def update_todo (now : Int) (todo_id : Nat) (u : TodoUpdate) (st : Store) :
    Except ApiError Todo × Store :=
  match lookupTodo todo_id st with
  | none => (Except.error ApiError.notFound, st)
  | some stored =>
    let updated_metadata : Metadata :=
      { stored.metadata with
        updated_at := now
        version := stored.metadata.version + 1 }
    let completed_at : Option Int :=
      match u.status with
      | none => stored.completed_at
      | some new_status =>
        if new_status = Status.completed ∧ stored.status ≠ Status.completed then
          some now
        else if new_status ≠ Status.completed ∧ stored.status = Status.completed then
          none
        else
          stored.completed_at
    let merged := mergeUpdate stored u updated_metadata completed_at
    let updated_todo := { merged with progress_percent := calculate_progress merged }
    (Except.ok updated_todo, putTodo todo_id updated_todo st)

/-- The delete operation (`def delete_todo`): 404 on a missing id,
otherwise remove the entry. -/
def delete_todo (todo_id : Nat) (st : Store) : Except ApiError Unit × Store :=
  if (lookupTodo todo_id st).isSome then
    (Except.ok (), removeTodo todo_id st)
  else
    (Except.error ApiError.notFound, st)

/-- Loop body of `def batch_create_todos`, with the running item index.
Each iteration bumps `current_id` first (inside the `try`, but before
anything that can raise), then attempts the construction; a failure is
recorded with the zero-based index and does not roll the counter back. -/
def batchCreateRun (now : Int) :
    List TodoCreate → Nat → Store → List Todo × List (Nat × String) × Store
  | [], _, st => ([], [], st)
  | item :: rest, idx, st =>
    let cid := st.current_id + 1
    let st1 : Store := { st with current_id := cid }
    if validTodoCreate item then
      let t := mkTodo cid now item
      let st2 := putTodo cid t st1
      let out := batchCreateRun now rest (idx + 1) st2
      (t :: out.1, out.2.1, out.2.2)
    else
      let out := batchCreateRun now rest (idx + 1) st1
      (out.1, (idx, "validation error") :: out.2.1, out.2.2)

/-- The batch create operation (`def batch_create_todos`). -/
def batch_create_todos (now : Int) (items : List TodoCreate) (st : Store) :
    BatchCreateResponse × Store :=
  let out := batchCreateRun now items 0 st
  ({ created := out.1
     failed := out.2.1
     total_created := out.1.length
     total_failed := out.2.1.length }, out.2.2)

/-- Loop body of `def batch_delete_todos`: for each id in request order,
delete it when present, record it as not found otherwise.  The source
appends to two accumulator lists; consing the head of the recursion
produces the same lists in the same order. -/
def batchDeleteRun : List Nat → Store → List Nat × List Nat × Store
  | [], st => ([], [], st)
  | todo_id :: rest, st =>
    if (lookupTodo todo_id st).isSome then
      let out := batchDeleteRun rest (removeTodo todo_id st)
      (todo_id :: out.1, out.2.1, out.2.2)
    else
      let out := batchDeleteRun rest st
      (out.1, todo_id :: out.2.1, out.2.2)

/-- The batch delete operation (`def batch_delete_todos`). -/
def batch_delete_todos (ids : List Nat) (st : Store) :
    BatchDeleteResponse × Store :=
  let out := batchDeleteRun ids st
  ({ deleted_ids := out.1
     not_found_ids := out.2.1
     total_deleted := out.1.length }, out.2.2)

/-- Read operation (`def get_todo`): 404 on a missing id. -/
def get_todo (todo_id : Nat) (st : Store) : Except ApiError Todo :=
  match lookupTodo todo_id st with
  | some t => Except.ok t
  | none => Except.error ApiError.notFound

/-- Enum members of `Status` in declaration order with their string
values, as iterated by `{s.value: 0 for s in Status}`. -/
def statusValues : List String :=
  ["pending", "in_progress", "completed", "blocked", "cancelled"]

/-- String value of a status member. -/
def Status.value : Status → String
  | .pending => "pending"
  | .in_progress => "in_progress"
  | .completed => "completed"
  | .blocked => "blocked"
  | .cancelled => "cancelled"

/-- Enum members of `Priority` in declaration order with their string
values. -/
def priorityValues : List String :=
  ["low", "medium", "high", "critical"]

/-- String value of a priority member. -/
def Priority.value : Priority → String
  | .low => "low"
  | .medium => "medium"
  | .high => "high"
  | .critical => "critical"

/-- Dict increment `m[key] += 1` on a count map whose keys were
pre-populated. -/
def bumpCount (key : String) (m : List (String × Nat)) : List (String × Nat) :=
  m.map (fun p => if p.1 = key then (p.1, p.2 + 1) else p)

/-- Accumulator of the single pass in `get_stats`: the two count maps, the
overdue count, the completed-this-week count and the list of completion
durations in minutes. -/
structure StatsAcc where
  by_status : List (String × Nat)
  by_priority : List (String × Nat)
  overdue_count : Nat
  completed_this_week : Nat
  completion_times : List ℚ
deriving DecidableEq, Repr

/-- Loop body of `get_stats` for one todo.  The week test is
`todo.completed_at and todo.completed_at >= week_ago`; the source imposes
no upper bound at `now`.  The inner `if created:` guard is always taken
since `metadata.created_at` is an always-present datetime (truthy).  The
duration is `(completed_at - created).total_seconds() / 60`, modelled as an
exact rational. -/
def statsStep (now week_ago : Int) (acc : StatsAcc) (todo : Todo) : StatsAcc :=
  let acc :=
    { acc with
      by_status := bumpCount todo.status.value acc.by_status
      by_priority := bumpCount todo.priority.value acc.by_priority }
  let acc :=
    if is_overdue todo now then { acc with overdue_count := acc.overdue_count + 1 }
    else acc
  match todo.completed_at with
  | some c =>
    if week_ago ≤ c then
      { acc with
        completed_this_week := acc.completed_this_week + 1
        completion_times :=
          acc.completion_times ++ [((c : ℚ) - (todo.metadata.created_at : ℚ)) / 60] }
    else acc
  | none => acc

/-- The statistics operation (`def get_stats`): one pass over all todos;
the average is `sum(times) / len(times)` when the list is nonempty and
absent (null) otherwise. -/
def get_stats (now : Int) (st : Store) : StatsResponse :=
  let week_ago := now - 604800
  let all_todos := st.todos.map Prod.snd
  let init : StatsAcc :=
    { by_status := statusValues.map (fun s => (s, 0))
      by_priority := priorityValues.map (fun s => (s, 0))
      overdue_count := 0
      completed_this_week := 0
      completion_times := [] }
  let acc := all_todos.foldl (statsStep now week_ago) init
  { total_todos := all_todos.length
    by_status := acc.by_status
    by_priority := acc.by_priority
    overdue_count := acc.overdue_count
    completed_this_week := acc.completed_this_week
    average_completion_time_minutes :=
      if acc.completion_times = [] then none
      else some (acc.completion_times.sum / (acc.completion_times.length : ℚ)) }

/-- One client command against the service, carrying the clock instant at
which it runs where the handler reads the clock. -/
inductive Op where
  | create (now : Int) (input : TodoCreate)
  | update (now : Int) (todo_id : Nat) (u : TodoUpdate)
  | delete (todo_id : Nat)
  | batchCreate (now : Int) (items : List TodoCreate)
  | batchDelete (ids : List Nat)
deriving DecidableEq, Repr

/-- Post-state of one operation (responses discarded). -/
def opStore (op : Op) (st : Store) : Store :=
  match op with
  | .create now input => (create_todo now input st).2
  | .update now todo_id u => (update_todo now todo_id u st).2
  | .delete todo_id => (delete_todo todo_id st).2
  | .batchCreate now items => (batch_create_todos now items st).2
  | .batchDelete ids => (batch_delete_todos ids st).2

/-- Identifiers the counter hands out during one operation: one per
creation attempt, consumed in order, starting right above the pre-state
counter.  Only the two create operations allocate. -/
def allocatedIds (op : Op) (st : Store) : List Nat :=
  match op with
  | .create _ _ => [st.current_id + 1]
  | .update _ _ _ => []
  | .delete _ => []
  | .batchCreate _ items => List.range' (st.current_id + 1) items.length
  | .batchDelete _ => []

/-- Run a sequence of operations, collecting every allocated identifier in
order. -/
def runOps : List Op → Store → Store × List Nat
  | [], st => (st, [])
  | op :: ops, st =>
    let st1 := opStore op st
    let out := runOps ops st1
    (out.1, allocatedIds op st ++ out.2)

/-- Store invariant: every stored key was handed out by the counter, so it
is bounded by the counter. -/
def storeInv (st : Store) : Prop :=
  ∀ p ∈ st.todos, p.1 ≤ st.current_id

instance (st : Store) : Decidable (storeInv st) :=
  List.decidableBAll _ st.todos

/-! Concrete sample values, used by the witness theorems. -/

/-- Sample metadata record. -/
def exMetadata : Metadata :=
  { created_at := 0
    updated_at := 0
    created_by := none
    version := 1
    tags := []
    custom_fields := [] }

/-- Sample stored todo. -/
def exTodo : Todo :=
  { id := 1
    title := "Buy milk"
    description := none
    priority := Priority.medium
    status := Status.pending
    due_date := some 50
    labels := []
    subtasks := []
    reminders := []
    recurrence := none
    attachments := []
    parent_id := none
    assignee_ids := []
    estimated_minutes := none
    actual_minutes := none
    metadata := exMetadata
    completed_at := none
    progress_percent := 0 }

/-- Sample store holding `exTodo` under key 1, with the counter at 1. -/
def exStore : Store := { todos := [(1, exTodo)], current_id := 1 }

/-- Update request that mentions no field at all. -/
def emptyUpdate : TodoUpdate :=
  { title := none
    description := none
    priority := none
    status := none
    due_date := none
    labels := none
    subtasks := none
    reminders := none
    recurrence := none
    attachments := none
    parent_id := none
    assignee_ids := none
    estimated_minutes := none
    actual_minutes := none }

/-- Sample valid create payload. -/
def exCreate : TodoCreate :=
  { title := "Write report"
    description := none
    priority := Priority.medium
    status := Status.pending
    due_date := none
    labels := []
    subtasks := []
    reminders := []
    recurrence := none
    attachments := []
    parent_id := none
    assignee_ids := []
    estimated_minutes := none
    actual_minutes := none }

end TodoService

namespace TodoService

/-- Helper: an overdue todo necessarily has a due date. -/
lemma is_overdue_due_date {t : Todo} {now : Int} (h : is_overdue t now = true) :
    t.due_date ≠ none := by
  cases hd : t.due_date with
  | none => simp [is_overdue, hd] at h
  | some d => simp [hd]

/-- C2.  The overdue filter of the list operation is asymmetric: requesting
`overdue=true` keeps exactly the todos satisfying `is_overdue`; requesting
`overdue=false` keeps exactly the todos that have a due date and are not
overdue; in both branches a todo without a due date never appears in the
result. -/
theorem overdue_filter_asymmetric (now : Int) (l : List Todo) (t : Todo) :
    (t ∈ overdueFilter true now l ↔ t ∈ l ∧ is_overdue t now = true)
  ∧ (t ∈ overdueFilter false now l ↔
      t ∈ l ∧ t.due_date.isSome = true ∧ is_overdue t now = false)
  ∧ (∀ b : Bool, t ∈ overdueFilter b now l → t.due_date ≠ none) := by
  refine ⟨?_, ?_, ?_⟩
  · simp [overdueFilter, List.mem_filter]
  · simp [overdueFilter, List.mem_filter]
  · intro b hb
    cases b with
    | true =>
      simp [overdueFilter, List.mem_filter] at hb
      exact is_overdue_due_date hb.2
    | false =>
      simp [overdueFilter, List.mem_filter, Option.isSome_iff_exists] at hb
      obtain ⟨d, hd⟩ := hb.2.1
      simp [hd]

/-- Witness for C2 at a concrete input: `exTodo` is due at 50 and pending,
so at instant 100 it is overdue and survives exactly the true branch. -/
theorem overdue_filter_asymmetric_witness :
    (exTodo ∈ overdueFilter true 100 [exTodo] ↔
      exTodo ∈ [exTodo] ∧ is_overdue exTodo 100 = true)
  ∧ (exTodo ∈ overdueFilter false 100 [exTodo] ↔
      exTodo ∈ [exTodo] ∧ exTodo.due_date.isSome = true
        ∧ is_overdue exTodo 100 = false)
  ∧ exTodo.due_date ≠ none :=
  ⟨(overdue_filter_asymmetric 100 [exTodo] exTodo).1,
    (overdue_filter_asymmetric 100 [exTodo] exTodo).2.1,
    (overdue_filter_asymmetric 100 [exTodo] exTodo).2.2 true (by decide)⟩

/-- C7.  An update addressed to an id absent from the store returns
NotFound and leaves the store exactly as it was: same contents (hence same
size) and same counter. -/
theorem update_notfound_frame (now : Int) (todo_id : Nat) (u : TodoUpdate)
    (st : Store) (h : lookupTodo todo_id st = none) :
    (update_todo now todo_id u st).1 = Except.error ApiError.notFound
  ∧ (update_todo now todo_id u st).2 = st
  ∧ (update_todo now todo_id u st).2.todos.length = st.todos.length
  ∧ (update_todo now todo_id u st).2.current_id = st.current_id := by
  simp [update_todo, h]

/-- Witness for C7 at a concrete input: id 2 is absent from `exStore`. -/
theorem update_notfound_frame_witness :
    lookupTodo 2 exStore = none
  ∧ (update_todo 7 2 emptyUpdate exStore).1 = Except.error ApiError.notFound
  ∧ (update_todo 7 2 emptyUpdate exStore).2 = exStore := by
  have h : lookupTodo 2 exStore = none := by decide
  have hm := update_notfound_frame 7 2 emptyUpdate exStore h
  exact ⟨h, hm.1, hm.2.1⟩

/-- C4.  Every successful update of an existing todo bumps
`metadata.version` by exactly 1, stamps `metadata.updated_at` with the
current instant, and leaves `metadata.created_at` and every other metadata
field unchanged. -/
theorem update_metadata_frame (now : Int) (todo_id : Nat) (u : TodoUpdate)
    (st : Store) (stored : Todo) (h : lookupTodo todo_id st = some stored) :
    ∃ t : Todo, (update_todo now todo_id u st).1 = Except.ok t
      ∧ t.metadata.version = stored.metadata.version + 1
      ∧ t.metadata.updated_at = now
      ∧ t.metadata.created_at = stored.metadata.created_at
      ∧ t.metadata.created_by = stored.metadata.created_by
      ∧ t.metadata.tags = stored.metadata.tags
      ∧ t.metadata.custom_fields = stored.metadata.custom_fields := by
  simp only [update_todo, h]
  exact ⟨_, rfl, by simp [mergeUpdate], by simp [mergeUpdate], by simp [mergeUpdate],
    by simp [mergeUpdate], by simp [mergeUpdate], by simp [mergeUpdate]⟩

/-- Witness for C4: updating the stored todo of `exStore` with an empty
request. -/
theorem update_metadata_frame_witness :
    lookupTodo 1 exStore = some exTodo
  ∧ (∃ t : Todo, (update_todo 7 1 emptyUpdate exStore).1 = Except.ok t
      ∧ t.metadata.version = exTodo.metadata.version + 1
      ∧ t.metadata.updated_at = 7
      ∧ t.metadata.created_at = exTodo.metadata.created_at
      ∧ t.metadata.created_by = exTodo.metadata.created_by
      ∧ t.metadata.tags = exTodo.metadata.tags
      ∧ t.metadata.custom_fields = exTodo.metadata.custom_fields) :=
  ⟨by decide, update_metadata_frame 7 1 emptyUpdate exStore exTodo (by decide)⟩

/-- C3.  The completion transition rule of the update operation: writing
the merged status as the requested status when supplied and the stored
status otherwise, a transition into completed stamps `completed_at` with
now, a transition out of completed clears it, and in every other case
(including updates that do not mention status) it is left unchanged. -/
theorem update_completion_transition (now : Int) (todo_id : Nat)
    (u : TodoUpdate) (st : Store) (stored : Todo)
    (h : lookupTodo todo_id st = some stored) :
    ∃ t : Todo, (update_todo now todo_id u st).1 = Except.ok t
      ∧ t.status = u.status.getD stored.status
      ∧ (u.status.getD stored.status = Status.completed ∧
          stored.status ≠ Status.completed → t.completed_at = some now)
      ∧ (u.status.getD stored.status ≠ Status.completed ∧
          stored.status = Status.completed → t.completed_at = none)
      ∧ ((u.status.getD stored.status = Status.completed ↔
          stored.status = Status.completed) →
          t.completed_at = stored.completed_at) := by
  simp only [update_todo, h]
  refine ⟨_, rfl, by simp [mergeUpdate], ?_, ?_, ?_⟩
  · rintro ⟨hm, hs⟩
    cases hu : u.status with
    | none => rw [hu] at hm; simp at hm; exact absurd hm hs
    | some s =>
      rw [hu] at hm; simp at hm
      simp [mergeUpdate, hu, hm, hs]
  · rintro ⟨hm, hs⟩
    cases hu : u.status with
    | none => rw [hu] at hm; simp at hm; exact absurd hs hm
    | some s =>
      rw [hu] at hm; simp at hm
      simp [mergeUpdate, hu, hm, hs]
  · intro hiff
    cases hu : u.status with
    | none => simp [mergeUpdate, hu]
    | some s =>
      rw [hu] at hiff; simp at hiff
      by_cases hs : s = Status.completed
      · simp [mergeUpdate, hu, hs, hiff.mp hs]
      · have hst : stored.status ≠ Status.completed := fun hc => hs (hiff.mpr hc)
        simp [mergeUpdate, hu, hs, hst]

/-- Update request that only sets the status to completed. -/
def completeUpd : TodoUpdate := { emptyUpdate with status := some Status.completed }

/-- Witness for C3: completing the pending stored todo of `exStore`. -/
theorem update_completion_transition_witness :
    lookupTodo 1 exStore = some exTodo
  ∧ (∃ t : Todo, (update_todo 7 1 completeUpd exStore).1 = Except.ok t
      ∧ t.status = completeUpd.status.getD exTodo.status
      ∧ (completeUpd.status.getD exTodo.status = Status.completed ∧
          exTodo.status ≠ Status.completed → t.completed_at = some 7)
      ∧ (completeUpd.status.getD exTodo.status ≠ Status.completed ∧
          exTodo.status = Status.completed → t.completed_at = none)
      ∧ ((completeUpd.status.getD exTodo.status = Status.completed ↔
          exTodo.status = Status.completed) →
          t.completed_at = exTodo.completed_at)) :=
  ⟨by decide, update_completion_transition 7 1 completeUpd exStore exTodo (by decide)⟩

/-- C10.  The update operation distinguishes a field that the request does
not mention from a field explicitly supplied as null: an explicit null on a
nullable field (due date, description) clears the stored value, an omitted
field leaves it unchanged, and an explicit value overwrites it. -/
theorem update_null_vs_absent (now : Int) (todo_id : Nat) (u : TodoUpdate)
    (st : Store) (stored : Todo) (h : lookupTodo todo_id st = some stored) :
    ∃ t : Todo, (update_todo now todo_id u st).1 = Except.ok t
      ∧ (u.due_date = some none → t.due_date = none)
      ∧ (u.due_date = none → t.due_date = stored.due_date)
      ∧ (∀ d : Int, u.due_date = some (some d) → t.due_date = some d)
      ∧ (u.description = some none → t.description = none)
      ∧ (u.description = none → t.description = stored.description) := by
  simp only [update_todo, h]
  refine ⟨_, rfl, ?_, ?_, ?_, ?_, ?_⟩
  · intro hd; simp [mergeUpdate, hd]
  · intro hd; simp [mergeUpdate, hd]
  · intro d hd; simp [mergeUpdate, hd]
  · intro hd; simp [mergeUpdate, hd]
  · intro hd; simp [mergeUpdate, hd]

/-- Update request that explicitly supplies the due date as null. -/
def clearDueUpd : TodoUpdate := { emptyUpdate with due_date := some none }

/-- Subtask list with 29 completed subtasks out of 50. -/
def bugSubtasks : List Subtask :=
  List.replicate 29 { id := "s", title := "done", completed := true, completed_at := none }
    ++ List.replicate 21 { id := "s", title := "open", completed := false, completed_at := none }

/-- Todo with 50 subtasks of which 29 are completed. -/
def bugTodo : Todo := { exTodo with subtasks := bugSubtasks }

set_option maxRecDepth 10000 in
/-- C1.  Evaluation of `calculate_progress` at the failing input: with 50
subtasks of which 29 are completed, the binary64 computation
`int((29 / 50) * 100)` yields 57 (the product rounds to the double just
below 58), while the specified `floor(100 * 29 / 50)` is 58. -/
theorem progress_float_divergence :
    bugTodo.subtasks.length = 50
  ∧ (bugTodo.subtasks.filter (fun s => s.completed)).length = 29
  ∧ calculate_progress bugTodo = 57
  ∧ (100 * 29 : Int) / 50 = 58 := by
  refine ⟨by decide, by decide, by decide, by decide⟩

/-- Helper: filtering out the key `k` does not change which entry a search
for a different key `j` finds. -/
lemma find_filter_other (l : List (Nat × Todo)) (k j : Nat) (h : ¬ j = k) :
    (l.filter (fun p => ¬ p.1 = k)).find? (fun p => p.1 = j)
      = l.find? (fun p => p.1 = j) := by
  induction l with
  | nil => rfl
  | cons p rest ih =>
    by_cases hp : p.1 = k
    · have hj : ¬ p.1 = j := by omega
      rw [List.filter_cons_of_neg (by simpa using hp),
        List.find?_cons_of_neg _ (by simpa using hj)]
      exact ih
    · by_cases hj : p.1 = j
      · rw [List.filter_cons_of_pos (by simpa using hp),
          List.find?_cons_of_pos _ (by simpa using hj),
          List.find?_cons_of_pos _ (by simpa using hj)]
      · rw [List.filter_cons_of_pos (by simpa using hp),
          List.find?_cons_of_neg _ (by simpa using hj),
          List.find?_cons_of_neg _ (by simpa using hj)]
        exact ih

/-- Helper: looking up a key other than the removed one is unaffected. -/
lemma lookup_remove_ne (k j : Nat) (st : Store) (h : ¬ j = k) :
    lookupTodo j (removeTodo k st) = lookupTodo j st :=
  congrArg (Option.map Prod.snd) (find_filter_other st.todos k j h)

/-- Helper: a removed key is gone. -/
lemma lookup_remove_self (k : Nat) (st : Store) :
    lookupTodo k (removeTodo k st) = none := by
  unfold lookupTodo removeTodo
  have hfind : List.find? (fun p => p.1 = k)
      (st.todos.filter (fun p => ¬ p.1 = k)) = none := by
    rw [List.find?_eq_none]
    intro x hx
    simp only [List.mem_filter] at hx
    simpa using hx.2
  simp only at hfind ⊢
  rw [hfind]
  rfl

/-- Helper: an absent key matches no stored entry. -/
lemma lookup_none_keys (a : Nat) (st : Store) (h : lookupTodo a st = none) :
    ∀ p ∈ st.todos, ¬ p.1 = a := by
  intro p hp
  unfold lookupTodo at h
  rw [Option.map_eq_none'] at h
  have := List.find?_eq_none.mp h p hp
  simpa using this

/-- Helper: the deleted ids form an order-preserving subsequence of the
request. -/
lemma bdr_deleted_sublist (ids : List Nat) (st : Store) :
    (batchDeleteRun ids st).1.Sublist ids := by
  induction ids generalizing st with
  | nil => simp [batchDeleteRun]
  | cons a rest ih =>
    simp only [batchDeleteRun]
    by_cases hp : (lookupTodo a st).isSome
    · simpa [hp] using (ih (removeTodo a st)).cons₂ a
    · simpa [hp] using (ih st).cons a

/-- Helper: the not-found ids form an order-preserving subsequence of the
request. -/
lemma bdr_notfound_sublist (ids : List Nat) (st : Store) :
    (batchDeleteRun ids st).2.1.Sublist ids := by
  induction ids generalizing st with
  | nil => simp [batchDeleteRun]
  | cons a rest ih =>
    simp only [batchDeleteRun]
    by_cases hp : (lookupTodo a st).isSome
    · simpa [hp] using (ih (removeTodo a st)).cons a
    · simpa [hp] using (ih st).cons₂ a

/-- Helper: an id is deleted exactly once when it is initially present and
requested at least once, and never otherwise; in particular a duplicate
after the successful deletion is not deleted again. -/
lemma bdr_deleted_count (ids : List Nat) (st : Store) (k : Nat) :
    (batchDeleteRun ids st).1.count k
      = if (lookupTodo k st).isSome ∧ k ∈ ids then 1 else 0 := by
  induction ids generalizing st with
  | nil => simp [batchDeleteRun]
  | cons a rest ih =>
    simp only [batchDeleteRun]
    by_cases hp : (lookupTodo a st).isSome
    · by_cases hk : k = a
      · subst hk
        have h2 := ih (removeTodo k st)
        rw [lookup_remove_self] at h2
        simp only [Option.isSome_none, Bool.false_eq_true, false_and,
          if_false] at h2
        simp [hp, List.count_cons, h2]
      · have h2 := ih (removeTodo a st)
        rw [lookup_remove_ne a k st hk] at h2
        simp only [hp, if_true, List.count_cons, h2]
        by_cases hm : k ∈ rest <;> simp [hm, hk] <;> omega
    · have hnone : lookupTodo a st = none := by
        cases hcase : lookupTodo a st with
        | none => rfl
        | some v => rw [hcase] at hp; simp at hp
      by_cases hk : k = a
      · subst hk
        simp [hp, ih st, List.count_cons, hnone]
      · simp only [hp, Bool.false_eq_true, if_false, ih st, List.count_cons]
        rcases Decidable.em (k ∈ rest) with hm | hm <;>
          rcases Decidable.em ((lookupTodo k st).isSome = true) with hs | hs <;>
          simp [hm, hk, hs]

/-- Helper: every requested occurrence lands in exactly one of the two
result lists. -/
lemma bdr_count_sum (ids : List Nat) (st : Store) (k : Nat) :
    (batchDeleteRun ids st).1.count k + (batchDeleteRun ids st).2.1.count k
      = ids.count k := by
  induction ids generalizing st with
  | nil => simp [batchDeleteRun]
  | cons a rest ih =>
    simp only [batchDeleteRun]
    by_cases hp : (lookupTodo a st).isSome
    · simp only [hp, if_true, List.count_cons]
      have := ih (removeTodo a st)
      omega
    · simp only [hp, Bool.false_eq_true, if_false, List.count_cons]
      have := ih st
      omega

/-- Helper: the post-state keeps exactly the entries whose key was not
requested. -/
lemma bdr_store (ids : List Nat) (st : Store) :
    (batchDeleteRun ids st).2.2.todos
      = st.todos.filter (fun p => ¬ p.1 ∈ ids) := by
  induction ids generalizing st with
  | nil => simp [batchDeleteRun]
  | cons a rest ih =>
    simp only [batchDeleteRun]
    by_cases hp : (lookupTodo a st).isSome
    · simp only [hp, if_true]
      rw [ih]
      unfold removeTodo
      simp only [List.filter_filter]
      apply List.filter_congr
      intro p hp2
      by_cases h1 : p.1 = a <;> by_cases h2 : p.1 ∈ rest <;> simp [h1, h2]
    · have hnone : lookupTodo a st = none := by
        cases hcase : lookupTodo a st with
        | none => rfl
        | some v => rw [hcase] at hp; simp at hp
      simp only [hp, Bool.false_eq_true, if_false]
      rw [ih]
      apply List.filter_congr
      intro p hp2
      have hne : ¬ p.1 = a := lookup_none_keys a st hnone p hp2
      by_cases h2 : p.1 ∈ rest <;> simp [hne, h2]

/-- Store for the batch-delete example: only id 5 exists. -/
def ex8Store : Store := { todos := [(5, { exTodo with id := 5 })], current_id := 5 }

/-- C8.  Batch delete processes the request ids in order: the deleted ids
and the not-found ids are order-preserving subsequences of the request, an
id is deleted exactly once when initially present and requested, every
requested occurrence is reported in exactly one of the two lists (so a
duplicate after a successful deletion is reported not-found), the
post-state drops exactly the requested keys, and the request [5, 5, 9]
against a store holding only id 5 yields deleted [5] and not-found [5, 9]. -/
theorem batch_delete_independent :
    (∀ (st : Store) (ids : List Nat),
      ((batch_delete_todos ids st).1.deleted_ids.Sublist ids)
    ∧ ((batch_delete_todos ids st).1.not_found_ids.Sublist ids)
    ∧ (∀ k : Nat, (batch_delete_todos ids st).1.deleted_ids.count k
        = if (lookupTodo k st).isSome ∧ k ∈ ids then 1 else 0)
    ∧ (∀ k : Nat, (batch_delete_todos ids st).1.deleted_ids.count k
          + (batch_delete_todos ids st).1.not_found_ids.count k = ids.count k)
    ∧ ((batch_delete_todos ids st).2.todos
        = st.todos.filter (fun p => ¬ p.1 ∈ ids)))
  ∧ (batch_delete_todos [5, 5, 9] ex8Store).1.deleted_ids = [5]
  ∧ (batch_delete_todos [5, 5, 9] ex8Store).1.not_found_ids = [5, 9] := by
  refine ⟨?_, by decide, by decide⟩
  intro st ids
  exact ⟨bdr_deleted_sublist ids st, bdr_notfound_sublist ids st,
    fun k => bdr_deleted_count ids st k,
    fun k => bdr_count_sum ids st k,
    bdr_store ids st⟩

/-- Helper: the rounded-up natural division the source computes equals the
rational ceiling, with 0 for an empty collection. -/
lemma ceil_div_nat (n ps : Nat) (hps : 1 ≤ ps) :
    (((if 0 < n then (n + ps - 1) / ps else 0 : Nat)) : Int)
      = ⌈(n : ℚ) / (ps : ℚ)⌉ := by
  by_cases hn : 0 < n
  · simp only [hn, if_true]
    have hdm := Nat.div_add_mod (n + ps - 1) ps
    have hr : (n + ps - 1) % ps < ps := Nat.mod_lt _ (by omega)
    set m := (n + ps - 1) / ps with hm
    have h1 : n ≤ ps * m := by omega
    have h2 : ps * m < n + ps := by omega
    rw [eq_comm, Int.ceil_eq_iff]
    have hpsq : (0 : ℚ) < (ps : ℚ) := by positivity
    constructor
    · rw [lt_div_iff₀ hpsq]
      have hc : ((ps * m : Nat) : ℚ) < ((n + ps : Nat) : ℚ) := by
        exact_mod_cast h2
      push_cast at hc ⊢
      nlinarith
    · rw [div_le_iff₀ hpsq]
      have hc : ((n : Nat) : ℚ) ≤ ((ps * m : Nat) : ℚ) := by exact_mod_cast h1
      push_cast at hc ⊢
      nlinarith
  · have hn0 : n = 0 := by omega
    subst hn0
    simp

/-- C5.  Pagination of a filtered and sorted result: the reported page
count is the rational ceiling of total over page size (0 when nothing
matches), the navigation flags are exactly `page < total_pages` and
`page > 1`, the reported total is the matching count, and a page beyond the
last yields an empty item list with no error. -/
theorem paginate_spec (result : List Todo) (page page_size : Nat)
    (hpage : 1 ≤ page) (hps : 1 ≤ page_size) :
    ((paginate result page page_size).total_pages : Int)
        = ⌈(result.length : ℚ) / (page_size : ℚ)⌉
  ∧ (paginate result page page_size).total = result.length
  ∧ ((paginate result page page_size).has_next = true
      ↔ page < (paginate result page page_size).total_pages)
  ∧ ((paginate result page page_size).has_previous = true ↔ 1 < page)
  ∧ ((paginate result page page_size).total_pages < page
      → (paginate result page page_size).items = []) := by
  refine ⟨?_, rfl, by simp [paginate], by simp [paginate], ?_⟩
  · simp only [paginate]
    exact ceil_div_nat result.length page_size hps
  · intro hlt
    simp only [paginate] at hlt ⊢
    have hstart : result.length ≤ (page - 1) * page_size := by
      by_cases hn : 0 < result.length
      · simp only [hn, if_true] at hlt
        have hdm := Nat.div_add_mod (result.length + page_size - 1) page_size
        have hr : (result.length + page_size - 1) % page_size < page_size :=
          Nat.mod_lt _ (by omega)
        set m := (result.length + page_size - 1) / page_size with hm
        have h1 : result.length ≤ page_size * m := by omega
        have h3 : m ≤ page - 1 := by omega
        calc result.length ≤ page_size * m := h1
          _ ≤ page_size * (page - 1) := Nat.mul_le_mul_left _ h3
          _ = (page - 1) * page_size := Nat.mul_comm _ _
      · have h0 : result.length = 0 := by omega
        rw [h0]
        exact Nat.zero_le _
    rw [List.drop_eq_nil_of_le hstart]
    simp

/-- Witness for C5: 25 items with page size 10 give 3 pages, and page 5 is
beyond the last page, returning no items. -/
theorem paginate_spec_witness :
    ((paginate (List.replicate 25 exTodo) 5 10).total_pages : Int)
        = ⌈(((List.replicate 25 exTodo).length : Nat) : ℚ) / ((10 : Nat) : ℚ)⌉
  ∧ (paginate (List.replicate 25 exTodo) 5 10).items = [] := by
  have h := paginate_spec (List.replicate 25 exTodo) 5 10 (by decide) (by decide)
  exact ⟨h.1, h.2.2.2.2 (by decide)⟩

/-- Witness for C10: the stored todo of `exStore` has a due date, and the
explicit-null update clears it. -/
theorem update_null_vs_absent_witness :
    lookupTodo 1 exStore = some exTodo
  ∧ (∃ t : Todo, (update_todo 7 1 clearDueUpd exStore).1 = Except.ok t
      ∧ (clearDueUpd.due_date = some none → t.due_date = none)
      ∧ (clearDueUpd.due_date = none → t.due_date = exTodo.due_date)
      ∧ (∀ d : Int, clearDueUpd.due_date = some (some d) → t.due_date = some d)
      ∧ (clearDueUpd.description = some none → t.description = none)
      ∧ (clearDueUpd.description = none → t.description = exTodo.description)) :=
  ⟨by decide, update_null_vs_absent 7 1 clearDueUpd exStore exTodo (by decide)⟩

end TodoService

namespace TodoService

/-- Membership test of the completed-this-week bucket that the code
actually uses: `completed_at` present and at least `week_ago`, with no
upper bound. -/
def weekBucket (week_ago : Int) (t : Todo) : Bool :=
  match t.completed_at with
  | some c => decide (week_ago ≤ c)
  | none => false

/-- Completion duration in minutes of a todo of the bucket. -/
def durMinutes (t : Todo) : ℚ :=
  (((t.completed_at.getD 0 : Int) : ℚ) - ((t.metadata.created_at : Int) : ℚ)) / 60

/-- Helper: effect of one loop iteration of `get_stats` on the two fields
the weekly bucket drives. -/
lemma statsStep_week (now week_ago : Int) (acc : StatsAcc) (t : Todo) :
    (statsStep now week_ago acc t).completed_this_week
      = acc.completed_this_week + (if weekBucket week_ago t = true then 1 else 0)
  ∧ (statsStep now week_ago acc t).completion_times
      = acc.completion_times
          ++ (if weekBucket week_ago t = true then [durMinutes t] else []) := by
  unfold statsStep weekBucket durMinutes
  cases hc : t.completed_at with
  | none => by_cases ho : is_overdue t now <;> simp [ho]
  | some c =>
    by_cases ho : is_overdue t now <;> by_cases hw : week_ago ≤ c <;>
      simp [ho, hw, hc]

/-- Helper: the fold of `get_stats` counts the bucket and collects its
durations in order. -/
lemma statsFold_week (now week_ago : Int) (l : List Todo) (acc : StatsAcc) :
    (l.foldl (statsStep now week_ago) acc).completed_this_week
      = acc.completed_this_week + (l.filter (weekBucket week_ago)).length
  ∧ (l.foldl (statsStep now week_ago) acc).completion_times
      = acc.completion_times ++ (l.filter (weekBucket week_ago)).map durMinutes := by
  induction l generalizing acc with
  | nil => simp
  | cons t rest ih =>
    simp only [List.foldl_cons]
    have hstep := statsStep_week now week_ago acc t
    have hrec := ih (statsStep now week_ago acc t)
    by_cases hb : weekBucket week_ago t = true
    · rw [List.filter_cons_of_pos (by simpa using hb)]
      constructor
      · rw [hrec.1, hstep.1]
        simp [hb]
        omega
      · rw [hrec.2, hstep.2]
        simp [hb]
    · rw [List.filter_cons_of_neg (by simpa using hb)]
      constructor
      · rw [hrec.1, hstep.1]
        simp [hb]
      · rw [hrec.2, hstep.2]
        simp [hb]

/-- Number of todos whose `completed_at` lies inside the trailing 7-day
window ending at `now`, both bounds inclusive.  Stated from the claim
wording, for comparison with what `get_stats` computes. -/
def completedThisWeekClaim (now : Int) (l : List Todo) : Nat :=
  (l.filter (fun t =>
    match t.completed_at with
    | some c => decide (now - 604800 ≤ c) && decide (c ≤ now)
    | none => false)).length

/-- Todo completed one minute after the stats instant 0: inside the
window of nothing, yet counted by the code. -/
def ex6Todo : Todo :=
  { exTodo with
    status := Status.completed
    due_date := none
    completed_at := some 60 }

/-- Store holding only `ex6Todo`. -/
def ex6Store : Store := { todos := [(1, ex6Todo)], current_id := 1 }

/-- C6 counterexample.  At `now = 0`, a todo whose `completed_at` is 60
(one minute in the future) does not fall within the trailing 7-day window
ending at `now`, yet `get_stats` counts it as completed this week and
reports a non-null average: the code checks only the lower bound
`completed_at >= now - 7 days`. -/
theorem stats_week_window_counterexample :
    (get_stats 0 ex6Store).completed_this_week = 1
  ∧ completedThisWeekClaim 0 (ex6Store.todos.map Prod.snd) = 0
  ∧ (get_stats 0 ex6Store).average_completion_time_minutes.isSome = true := by
  refine ⟨by decide, by decide, by decide⟩

/-- C6 as amended.  For every collection and instant, `get_stats` counts as
completed-this-week exactly the todos with `completed_at` present and at
least `now - 7 days` (no upper bound at `now`; on collections whose
completion stamps are not in the future this coincides with the claimed
window), and the average completion time is the exact mean of
`(completed_at - metadata.created_at)` in minutes over exactly that bucket,
and is null exactly when that bucket is empty - never zero for an empty
bucket.  Here 604800 is 7 * 86400 seconds. -/
theorem stats_week_amended (now : Int) (st : Store) :
    (get_stats now st).completed_this_week
      = ((st.todos.map Prod.snd).filter (weekBucket (now - 604800))).length
  ∧ (get_stats now st).average_completion_time_minutes
      = (if ((st.todos.map Prod.snd).filter (weekBucket (now - 604800))) = []
         then none
         else some
          ((((st.todos.map Prod.snd).filter (weekBucket (now - 604800))).map
              durMinutes).sum
            / ((((st.todos.map Prod.snd).filter
                (weekBucket (now - 604800))).length : Nat) : ℚ)))
  ∧ ((get_stats now st).average_completion_time_minutes = none
      ↔ ((st.todos.map Prod.snd).filter (weekBucket (now - 604800))) = []) := by
  have hfold := statsFold_week now (now - 604800) (st.todos.map Prod.snd)
    { by_status := statusValues.map (fun s => (s, 0))
      by_priority := priorityValues.map (fun s => (s, 0))
      overdue_count := 0
      completed_this_week := 0
      completion_times := [] }
  refine ⟨?_, ?_, ?_⟩
  · unfold get_stats
    simp only []
    rw [hfold.1]
    simp
  · unfold get_stats
    simp only []
    rw [hfold.2]
    simp only [List.nil_append]
    by_cases hb : ((st.todos.map Prod.snd).filter (weekBucket (now - 604800))) = []
    · simp [hb]
    · have hm : ((st.todos.map Prod.snd).filter
          (weekBucket (now - 604800))).map durMinutes ≠ [] := by
        simpa using hb
      simp [hb, hm]
  · unfold get_stats
    simp only []
    rw [hfold.2]
    simp only [List.nil_append]
    by_cases hb : ((st.todos.map Prod.snd).filter (weekBucket (now - 604800))) = []
    · simp [hb]
    · have hm : ((st.todos.map Prod.snd).filter
          (weekBucket (now - 604800))).map durMinutes ≠ [] := by
        simpa using hb
      simp [hb, hm]

end TodoService

namespace TodoService

/-- Helper: membership in a step-one range. -/
lemma mem_range_one {s n m : Nat} :
    m ∈ List.range' s n ↔ s ≤ m ∧ m < s + n := by
  rw [List.mem_range']
  constructor
  · rintro ⟨i, hi, rfl⟩
    omega
  · intro h
    exact ⟨m - s, by omega, by omega⟩

/-- Helper: a step-one range is strictly increasing. -/
lemma pairwise_lt_range_one (n : Nat) : ∀ s : Nat,
    List.Pairwise (· < ·) (List.range' s n) := by
  induction n with
  | zero => intro s; simp
  | succ n ih =>
    intro s
    rw [List.range'_succ]
    exact List.Pairwise.cons
      (fun m hm => by have := mem_range_one.mp hm; omega) (ih (s + 1))

/-- Helper: storing never touches the counter. -/
lemma putTodo_current_id (k : Nat) (t : Todo) (st : Store) :
    (putTodo k t st).current_id = st.current_id := by
  unfold putTodo
  split <;> rfl

/-- Helper: storing only introduces its own key. -/
lemma keys_putTodo (k : Nat) (t : Todo) (st : Store) :
    ∀ j ∈ storeKeys (putTodo k t st), j ∈ storeKeys st ∨ j = k := by
  intro j hj
  unfold putTodo at hj
  by_cases hpresent : (lookupTodo k st).isSome
  · simp only [hpresent, if_true, storeKeys, List.map_map, List.mem_map,
      Function.comp] at hj
    obtain ⟨p, hp, hval⟩ := hj
    by_cases hpk : p.1 = k
    · rw [if_pos hpk] at hval
      exact Or.inr hval.symm
    · rw [if_neg hpk] at hval
      exact Or.inl (List.mem_map.mpr ⟨p, hp, hval⟩)
  · simp only [hpresent, Bool.false_eq_true, if_false, storeKeys, List.map_append,
      List.mem_append, List.map_cons, List.map_nil, List.mem_cons] at hj
    rcases hj with hj | hj
    · exact Or.inl hj
    · simp at hj
      exact Or.inr hj

/-- Helper: removal never touches the counter. -/
lemma removeTodo_current_id (k : Nat) (st : Store) :
    (removeTodo k st).current_id = st.current_id := rfl

/-- Helper: removal only drops keys. -/
lemma keys_removeTodo (k : Nat) (st : Store) :
    ∀ j ∈ storeKeys (removeTodo k st), j ∈ storeKeys st := by
  intro j hj
  simp only [removeTodo, storeKeys, List.mem_map] at hj ⊢
  obtain ⟨p, hp, hval⟩ := hj
  exact ⟨p, (List.mem_filter.mp hp).1, hval⟩

/-- Helper: a successful lookup means the key is stored. -/
lemma lookup_some_mem (a : Nat) (st : Store) (v : Todo)
    (h : lookupTodo a st = some v) : a ∈ storeKeys st := by
  unfold lookupTodo at h
  rcases Option.map_eq_some'.mp h with ⟨p, hp, hval⟩
  have hmem := List.mem_of_find?_eq_some hp
  have hpred := List.find?_some hp
  simp only [decide_eq_true_eq] at hpred
  simp only [storeKeys, List.mem_map]
  exact ⟨p, hmem, hpred⟩

/-- Helper: counter effect of one create. -/
lemma create_current_id (now : Int) (i : TodoCreate) (st : Store) :
    (create_todo now i st).2.current_id = st.current_id + 1 := by
  unfold create_todo
  split
  · rw [putTodo_current_id]
  · rfl

/-- Helper: keys effect of one create. -/
lemma keys_create (now : Int) (i : TodoCreate) (st : Store) :
    ∀ j ∈ storeKeys (create_todo now i st).2,
      j ∈ storeKeys st ∨ j = st.current_id + 1 := by
  intro j hj
  unfold create_todo at hj
  by_cases hv : validTodoCreate i = true
  · simp only [hv, if_true] at hj
    rcases keys_putTodo (st.current_id + 1) (mkTodo (st.current_id + 1) now i)
      { st with current_id := st.current_id + 1 } j hj with h | h
    · exact Or.inl h
    · exact Or.inr h
  · simp only [hv, Bool.false_eq_true, if_false] at hj
    exact Or.inl hj

/-- Helper: the update operation preserves the counter. -/
lemma update_current_id (now : Int) (todo_id : Nat) (u : TodoUpdate)
    (st : Store) : (update_todo now todo_id u st).2.current_id = st.current_id := by
  unfold update_todo
  cases h : lookupTodo todo_id st with
  | none => rfl
  | some stored => simp only []; rw [putTodo_current_id]

/-- Helper: the update operation introduces no new key. -/
lemma keys_update (now : Int) (todo_id : Nat) (u : TodoUpdate) (st : Store) :
    ∀ j ∈ storeKeys (update_todo now todo_id u st).2, j ∈ storeKeys st := by
  intro j hj
  unfold update_todo at hj
  cases h : lookupTodo todo_id st with
  | none => rw [h] at hj; exact hj
  | some stored =>
    rw [h] at hj
    simp only [] at hj
    rcases keys_putTodo _ _ _ j hj with hj2 | hj2
    · exact hj2
    · exact hj2 ▸ lookup_some_mem todo_id st stored h

/-- Helper: counter and keys effect of the batch create loop. -/
lemma bcr_spec (now : Int) (items : List TodoCreate) : ∀ (idx : Nat) (st : Store),
    (batchCreateRun now items idx st).2.2.current_id
      = st.current_id + items.length
  ∧ (∀ j ∈ storeKeys (batchCreateRun now items idx st).2.2,
      j ∈ storeKeys st
        ∨ (st.current_id + 1 ≤ j ∧ j ≤ st.current_id + items.length)) := by
  induction items with
  | nil =>
    intro idx st
    refine ⟨by simp [batchCreateRun], ?_⟩
    intro j hj
    exact Or.inl hj
  | cons item rest ih =>
    intro idx st
    simp only [batchCreateRun]
    have hcur1 : ({ st with current_id := st.current_id + 1 } : Store).current_id
        = st.current_id + 1 := rfl
    by_cases hv : validTodoCreate item = true
    · simp only [hv, if_true]
      have hrec := ih (idx + 1)
        (putTodo (st.current_id + 1) (mkTodo (st.current_id + 1) now item)
          { st with current_id := st.current_id + 1 })
      have hput : (putTodo (st.current_id + 1)
          (mkTodo (st.current_id + 1) now item)
          { st with current_id := st.current_id + 1 }).current_id
            = st.current_id + 1 := by
        rw [putTodo_current_id]
      constructor
      · rw [hrec.1, hput]
        simp only [List.length_cons]
        omega
      · intro j hj
        rcases hrec.2 j hj with hj2 | hj2
        · rcases keys_putTodo (st.current_id + 1)
            (mkTodo (st.current_id + 1) now item)
            { st with current_id := st.current_id + 1 } j hj2 with hj3 | hj3
          · exact Or.inl hj3
          · right
            simp only [List.length_cons]
            omega
        · right
          rw [hput] at hj2
          simp only [List.length_cons]
          omega
    · simp only [hv, Bool.false_eq_true, if_false]
      have hrec := ih (idx + 1) { st with current_id := st.current_id + 1 }
      constructor
      · rw [hrec.1, hcur1]
        simp only [List.length_cons]
        omega
      · intro j hj
        rcases hrec.2 j hj with hj2 | hj2
        · exact Or.inl hj2
        · right
          rw [hcur1] at hj2
          simp only [List.length_cons]
          omega

/-- Helper: the batch delete loop preserves the counter. -/
lemma bdr_current_id (ids : List Nat) : ∀ st : Store,
    (batchDeleteRun ids st).2.2.current_id = st.current_id := by
  induction ids with
  | nil => intro st; rfl
  | cons a rest ih =>
    intro st
    simp only [batchDeleteRun]
    by_cases hp : (lookupTodo a st).isSome
    · simp only [hp, if_true]
      rw [ih (removeTodo a st)]
      rfl
    · simp only [hp, Bool.false_eq_true, if_false]
      exact ih st

/-- Helper: the batch delete loop introduces no new key. -/
lemma keys_bdr (ids : List Nat) (st : Store) :
    ∀ j ∈ storeKeys (batchDeleteRun ids st).2.2, j ∈ storeKeys st := by
  intro j hj
  have hs := bdr_store ids st
  simp only [storeKeys, List.mem_map] at hj ⊢
  obtain ⟨p, hp, hval⟩ := hj
  rw [hs] at hp
  exact ⟨p, (List.mem_filter.mp hp).1, hval⟩

/-- Helper: counter movement, key provenance, allocation bounds and strict
ordering for one operation. -/
lemma opStore_spec (op : Op) (st : Store) :
    (opStore op st).current_id = st.current_id + (allocatedIds op st).length
  ∧ (∀ j ∈ storeKeys (opStore op st),
      j ∈ storeKeys st ∨ j ∈ allocatedIds op st)
  ∧ (∀ k ∈ allocatedIds op st,
      st.current_id < k ∧ k ≤ st.current_id + (allocatedIds op st).length)
  ∧ List.Pairwise (· < ·) (allocatedIds op st) := by
  cases op with
  | create now input =>
    refine ⟨by simp [opStore, allocatedIds, create_current_id], ?_, ?_,
      by simp [allocatedIds]⟩
    · intro j hj
      rcases keys_create now input st j hj with h | h
      · exact Or.inl h
      · exact Or.inr (by simp [allocatedIds, h])
    · intro k hk
      simp only [allocatedIds, List.mem_singleton] at hk
      simp [hk, allocatedIds]
  | update now todo_id u =>
    exact ⟨by simp [opStore, allocatedIds, update_current_id],
      fun j hj => Or.inl (keys_update now todo_id u st j hj),
      by intro k hk; exact absurd hk (List.not_mem_nil k),
      List.Pairwise.nil⟩
  | delete todo_id =>
    refine ⟨?_, ?_, by intro k hk; exact absurd hk (List.not_mem_nil k),
      List.Pairwise.nil⟩
    · simp only [opStore, allocatedIds, List.length_nil, Nat.add_zero,
        delete_todo]
      split <;> rfl
    · intro j hj
      simp only [opStore, delete_todo] at hj
      by_cases hp : (lookupTodo todo_id st).isSome
      · simp only [hp, if_true] at hj
        exact Or.inl (keys_removeTodo todo_id st j hj)
      · simp only [hp, Bool.false_eq_true, if_false] at hj
        exact Or.inl hj
  | batchCreate now items =>
    have hb := bcr_spec now items 0 st
    refine ⟨?_, ?_, ?_, ?_⟩
    · simp only [opStore, allocatedIds, batch_create_todos]
      rw [hb.1, List.length_range']
    · intro j hj
      simp only [opStore, batch_create_todos] at hj
      rcases hb.2 j hj with h | h
      · exact Or.inl h
      · right
        simp only [allocatedIds]
        rw [mem_range_one]
        omega
    · intro k hk
      simp only [allocatedIds] at hk ⊢
      rw [mem_range_one] at hk
      rw [List.length_range']
      omega
    · simp only [allocatedIds]
      exact pairwise_lt_range_one items.length (st.current_id + 1)
  | batchDelete ids =>
    refine ⟨?_, ?_, by intro k hk; exact absurd hk (List.not_mem_nil k),
      List.Pairwise.nil⟩
    · simp only [opStore, allocatedIds, List.length_nil, Nat.add_zero,
        batch_delete_todos]
      exact bdr_current_id ids st
    · intro j hj
      simp only [opStore, batch_delete_todos] at hj
      exact Or.inl (keys_bdr ids st j hj)

/-- C9.  Across every sequence of operations, the identifiers handed out by
the counter form a strictly increasing list, each exceeding the counter at
the start (hence never equal to a previously stored or previously allocated
id - no reuse), the counter never moves backwards (a failed creation keeps
its consumed id), the store invariant is preserved, and every key of the
final store is either an original key or one of the allocated ids. -/
theorem ids_allocated_monotone (ops : List Op) : ∀ st : Store, storeInv st →
    List.Pairwise (· < ·) (runOps ops st).2
  ∧ (∀ k ∈ (runOps ops st).2,
      st.current_id < k ∧ k ≤ (runOps ops st).1.current_id)
  ∧ st.current_id ≤ (runOps ops st).1.current_id
  ∧ storeInv (runOps ops st).1
  ∧ (∀ k ∈ (runOps ops st).2, ¬ k ∈ storeKeys st)
  ∧ (∀ j ∈ storeKeys (runOps ops st).1,
      j ∈ storeKeys st ∨ j ∈ (runOps ops st).2) := by
  induction ops with
  | nil =>
    intro st h
    exact ⟨by simp [runOps], by simp [runOps], Nat.le_refl _, h,
      by simp [runOps], by simp [runOps]⟩
  | cons op ops ih =>
    intro st h
    have hop := opStore_spec op st
    have hinv1 : storeInv (opStore op st) := by
      intro p hp
      have hk : p.1 ∈ storeKeys (opStore op st) := by
        simp only [storeKeys, List.mem_map]
        exact ⟨p, hp, rfl⟩
      rcases hop.2.1 p.1 hk with hk2 | hk2
      · have : p.1 ≤ st.current_id := by
          simp only [storeKeys, List.mem_map] at hk2
          obtain ⟨q, hq, hval⟩ := hk2
          exact hval ▸ h q hq
        omega
      · have := hop.2.2.1 p.1 hk2
        omega
    have hrec := ih (opStore op st) hinv1
    have hrun1 : (runOps (op :: ops) st).1 = (runOps ops (opStore op st)).1 := rfl
    have hrun2 : (runOps (op :: ops) st).2
        = allocatedIds op st ++ (runOps ops (opStore op st)).2 := rfl
    rw [hrun1, hrun2]
    have hAbound := hop.2.2.1
    have hA1 : (opStore op st).current_id
        = st.current_id + (allocatedIds op st).length := hop.1
    refine ⟨?_, ?_, ?_, hrec.2.2.2.1, ?_, ?_⟩
    · rw [List.pairwise_append]
      refine ⟨hop.2.2.2, hrec.1, ?_⟩
      intro a ha b hb
      have h1 := hAbound a ha
      have h2 := hrec.2.1 b hb
      omega
    · intro k hk
      rcases List.mem_append.mp hk with hk | hk
      · have h1 := hAbound k hk
        have h2 := hrec.2.2.1
        omega
      · have h1 := hrec.2.1 k hk
        omega
    · have := hrec.2.2.1
      omega
    · intro k hk
      intro hmem
      have hle : k ≤ st.current_id := by
        simp only [storeKeys, List.mem_map] at hmem
        obtain ⟨q, hq, hval⟩ := hmem
        exact hval ▸ h q hq
      rcases List.mem_append.mp hk with hk2 | hk2
      · have := hAbound k hk2
        omega
      · have := hrec.2.1 k hk2
        omega
    · intro j hj
      rcases hrec.2.2.2.2.2 j hj with hj2 | hj2
      · rcases hop.2.1 j hj2 with hj3 | hj3
        · exact Or.inl hj3
        · exact Or.inr (List.mem_append.mpr (Or.inl hj3))
      · exact Or.inr (List.mem_append.mpr (Or.inr hj2))

/-- Empty initial store. -/
def emptyStore : Store := { todos := [], current_id := 0 }

/-- Operation sequence for the C9 witness: a create, a batch create with
two items, and a delete. -/
def ex9Ops : List Op :=
  [Op.create 0 exCreate, Op.batchCreate 1 [exCreate, exCreate], Op.delete 1]

/-- Witness for C9 at a concrete input: running the sample operations from
the empty store allocates a strictly increasing id list and preserves the
invariant. -/
theorem ids_allocated_monotone_witness :
    storeInv emptyStore
  ∧ List.Pairwise (· < ·) (runOps ex9Ops emptyStore).2
  ∧ storeInv (runOps ex9Ops emptyStore).1 :=
  ⟨by decide, (ids_allocated_monotone ex9Ops emptyStore (by decide)).1,
    (ids_allocated_monotone ex9Ops emptyStore (by decide)).2.2.2.1⟩

end TodoService
